import Mathlib

/-!
Shallow embedding of the per-request context component of the `tong` web
framework (file `context.go`, package `tong`).  Pure data is embedded as Lean
structures, the stateful methods of `Context` become explicit state-passing
functions `Context → ... → Context × Option GoError`.  Machine integers are
embedded as `Int`/`Nat`; byte slices as `List Nat`.

External collaborators (Go standard library, and repository files that are not
part of the provided source) are modelled at their interface, each with a doc
comment saying what it models.
-/

/-- Byte slices (`[]byte`) are embedded as lists of byte values. -/
abbrev Bytes := List Nat

/-- Model of the Go standard library `errors.New` / sentinel errors that the
context component can surface.  `errorString` is an `errors.New` value with
the given message; the other constructors stand for the error classes of the
spec taxonomy (encode, write, parse failures produced by the modelled
collaborators). -/
inductive GoError where
  | errorString (msg : String)
  | encodeError
  | writeError
  | parseError
deriving DecidableEq

/-- Model of `net/http` header maps (`http.Header`): an association list of
header keys and values.  The methods used by `context.go` are `Get` (first
value, empty string when absent) and `Set` (replace all values for the key).
Key canonicalisation is irrelevant here because the code only ever uses fixed
literal keys. -/
structure Header where
  entries : List (String × String)
deriving DecidableEq

/-- `http.Header.Get`: first value stored for the key, `""` when absent. -/
def Header.get (h : Header) (key : String) : String :=
  match h.entries.find? (fun p => p.1 = key) with
  | some p => p.2
  | none => ""

/-- `http.Header.Set`: replace the values stored for the key by the single
given value. -/
def Header.set (h : Header) (key value : String) : Header :=
  ⟨(key, value) :: h.entries.filter (fun p => ¬ p.1 = key)⟩

/-- Model of `net/url` `url.Values` (a map from keys to value lists), embedded
as an association list in order of appearance.  `Get` returns the first value
for the key, `""` when the key is absent. -/
structure Values where
  entries : List (String × String)
deriving DecidableEq

/-- `url.Values.Get`: first value for the key, `""` when absent. -/
def Values.get (v : Values) (key : String) : String :=
  match v.entries.find? (fun p => p.1 = key) with
  | some p => p.2
  | none => ""

/-- Model of the underlying transport writer (`http.ResponseWriter` body
stream): the bytes written so far, and whether the connection still accepts
writes.  A write on a healthy writer appends the bytes and reports no error; a
write on an unhealthy writer (client disconnect) reports a transport write
error, the `WriteError` of the spec taxonomy. -/
structure NetWriter where
  written : Bytes
  healthy : Bool
deriving DecidableEq

/-- Modelled from the spec: the `Response` wrapper of the repository (its file
is not part of the provided source).  Per the spec data model it wraps the
outbound writer and "tracks whether headers/status have been written and the
final status code"; status, once written, is immutable for the response
cycle. -/
structure Response where
  writer : NetWriter
  header : Header
  Status : Int
  committed : Bool
deriving DecidableEq

/-- Modelled from the spec: `Response.Reset(w)` rewraps the response around a
new writer and clears all written state (empty header map, nothing committed).
The initial status value before any explicit write is not observable in the
claims; it is taken to be 200. -/
def Response.ResetW (w : NetWriter) : Response :=
  { writer := w, header := ⟨[]⟩, Status := 200, committed := false }

/-- Modelled from the spec: `Response.Header()` exposes the wrapped header
map; setting a key mutates it.  Embedded as a functional update. -/
def Response.setHeader (resp : Response) (key value : String) : Response :=
  { resp with header := resp.header.set key value }

/-- Modelled from the spec: `Response.WriteHeader(code)` writes the status
line.  Status, once written, is immutable for the response cycle, so a second
call is ignored. -/
def Response.WriteHeader (resp : Response) (code : Int) : Response :=
  if resp.committed then resp else { resp with Status := code, committed := true }

/-- Modelled from the spec: `Response.Write(data)` passes the bytes to the
underlying transport writer and propagates its error unmodified. -/
def Response.Write (resp : Response) (data : Bytes) : Response × Option GoError :=
  if resp.writer.healthy then
    ({ resp with writer := { resp.writer with written := resp.writer.written ++ data } }, none)
  else
    (resp, some GoError.writeError)

/-- Model of `common.Logger` (opaque collaborator): only its identity
matters to the claims. -/
structure Logger where
  id : Nat
deriving DecidableEq

/-- Model of `common.Cache` (opaque request-scoped store): only its identity
matters to the claims. -/
structure Cache where
  id : Nat
deriving DecidableEq

/-- Model of the `HandlerFunc` type.  A Go function value can be `nil`, which
is the `nilHandler` constructor; `user i` stands for an arbitrary non-nil
handler installed by the router. -/
inductive HandlerFunc where
  | nilHandler
  | notFound
  | user (id : Nat)
deriving DecidableEq

/-- Modelled from the spec: `NotFoundHandler`, the deterministic not-found
handler of the framework (defined in the repository outside the provided
source), to which `Reset` rebinds the handler field. -/
def NotFoundHandler : HandlerFunc := HandlerFunc.notFound

/-- Modelled from the spec: the owning framework instance (`Tong`), reached
from the context only through its back-reference and used solely for the
binder.  `Binder` is the identity of the binder collaborator the instance
carries. -/
structure Tong where
  Binder : Nat
deriving DecidableEq

/-- Model of `*http.Request` at the interface `context.go` consumes: the
request header map, the parsed query values (the result of `URL.Query()`),
the parsed POST form values (the source of `PostFormValue`), and the outcomes
of body parsing.  `parseMultipart m` is the outcome of
`ParseMultipartForm(m)` together with the resulting unified `Form` mapping;
`parseForm` is the outcome of `ParseForm()` likewise.  Body reading itself is
external I/O and is folded into these outcome fields. -/
structure Request where
  header : Header
  query : Values
  postForm : Values
  parseMultipart : Nat → Except GoError Values
  parseForm : Except GoError Values

/-- The per-request context (struct `Context` of `context.go`). -/
structure Context where
  request : Request
  response : Response
  path : String
  handler : HandlerFunc
  logger : Logger
  requestCache : Cache
  tong : Tong

/- Constants.  The MIME constants below are declared in `context.go`;
the `common` package constants and the `net/http` status constants are
modelled from the spec / standard library. -/

def MIMEJSON : String := "application/json"
def MIMEHTML : String := "text/html"
def MIMEXML : String := "application/xml"
def MIMEXML2 : String := "text/xml"
def MIMEPlain : String := "text/plain"
def MIMEPOSTForm : String := "application/x-www-form-urlencoded"
def MIMEMultipartPOSTForm : String := "multipart/form-data"
def MIMEPROTOBUF : String := "application/x-protobuf"
def MIMEMSGPACK : String := "application/x-msgpack"
def MIMEMSGPACK2 : String := "application/msgpack"
def MIMEYAML : String := "application/x-yaml"

/-- `net/http` `http.StatusMultipleChoices`. -/
def StatusMultipleChoices : Int := 300

/-- `net/http` `http.StatusPermanentRedirect`. -/
def StatusPermanentRedirect : Int := 308

/-- Modelled from the spec: `common.HeaderLocation` (the `common` package is
not part of the provided source). -/
def HeaderLocation : String := "Location"

/-- Modelled from the spec: `common.HeaderContentType`, also the package
level `HeaderContentType` constant used by `FormParams`; both name the
Content-Type header key. -/
def HeaderContentType : String := "Content-Type"

/-- Modelled from the spec: `common.MIMEApplicationJSONCharsetUTF8`, the
JSON-with-UTF8-charset content type identifier. -/
def MIMEApplicationJSONCharsetUTF8 : String := "application/json; charset=UTF-8"

/-- Modelled from the spec: `common.MIMETextPlainCharsetUTF8`, the plain-text
content type identifier used by `String`. -/
def MIMETextPlainCharsetUTF8 : String := "text/plain; charset=UTF-8"

/-- `defaultMemory = 32 << 20`, the multipart in-memory threshold of
`context.go`. -/
def defaultMemory : Nat := 32 <<< 20

/- Models of the `strconv` standard library functions used by the scalar
getters.  The success/failure verdict is what the getters observe: a `none`
result stands for a non-nil error from `strconv` (syntax or range error). -/

/-- Model of `strconv.Atoi` (that is, `ParseInt(s, 10, 0)` with 64-bit `int`):
an optional sign followed by one or more decimal digits, the value fitting in
a signed 64-bit integer.  `none` models a non-nil error (syntax or range). -/
def atoi? (s : String) : Option Int :=
  let l := s.toList
  let sd : Bool × List Char :=
    match l with
    | '-' :: rest => (true, rest)
    | '+' :: rest => (false, rest)
    | _ => (false, l)
  if sd.2 = [] then none
  else if sd.2.all Char.isDigit then
    let n : Nat := sd.2.foldl (fun acc ch => acc * 10 + (ch.toNat - 48)) 0
    let v : Int := if sd.1 then -(n : Int) else (n : Int)
    if -(2 ^ 63 : Int) ≤ v ∧ v ≤ 2 ^ 63 - 1 then some v else none
  else none

/-- Result type for the model of `strconv.ParseFloat`: a finite value
(IEEE-754 rounding to the nearest double is abstracted to the exact rational
value denoted by the input), or an infinity or NaN from the special spellings
`inf`, `infinity`, `nan`. -/
inductive GoFloat where
  | finite (q : ℚ)
  | inf (neg : Bool)
  | nan
deriving DecidableEq

/-- Go `lower(c) = c | 0x20`, mapping ASCII upper case to lower case. -/
def lowerCh (ch : Char) : Char :=
  Char.ofNat (ch.toNat ||| 32)

/-- Port of `strconv.underscoreOK` inner loop: `saw` is the class of the last
character seen. -/
def underscoreScan (hex : Bool) : Char → List Char → Bool
  | saw, [] => saw ≠ '_'
  | saw, ch :: rest =>
    if ('0' ≤ ch ∧ ch ≤ '9') ∨ (hex ∧ 'a' ≤ lowerCh ch ∧ lowerCh ch ≤ 'f') then
      underscoreScan hex '0' rest
    else if ch = '_' then
      if saw = '0' then underscoreScan hex '_' rest else false
    else if saw = '_' then false
    else underscoreScan hex '!' rest

/-- Port of `strconv.underscoreOK`: underscores must sit between digits (the
base marker of a base prefix counting as a digit).  On a string without
underscores it is always true, so it is checked unconditionally here where
`strconv` checks it only when an underscore was seen. -/
def underscoreOK (s : String) : Bool :=
  let l0 := s.toList
  let l1 :=
    match l0 with
    | c0 :: rest => if c0 = '-' ∨ c0 = '+' then rest else l0
    | [] => l0
  match l1 with
  | c0 :: c1 :: rest =>
    if c0 = '0' ∧ (lowerCh c1 = 'b' ∨ lowerCh c1 = 'o' ∨ lowerCh c1 = 'x') then
      underscoreScan (lowerCh c1 = 'x') '0' rest
    else underscoreScan false '^' l1
  | _ => underscoreScan false '^' l1

/-- Value of a mantissa digit: decimal always, hex digits when `hex`. -/
def digitVal? (hex : Bool) (ch : Char) : Option Nat :=
  if '0' ≤ ch ∧ ch ≤ '9' then some (ch.toNat - 48)
  else if hex ∧ 'a' ≤ lowerCh ch ∧ lowerCh ch ≤ 'f' then some ((lowerCh ch).toNat - 87)
  else none

/-- Port of the mantissa loop of `strconv.readFloat`: consumes digits, at most
one dot and any underscores (placement of underscores is validated separately
by `underscoreOK`), accumulating the mantissa, the digit count and the number
of digits after the dot.  Returns the unconsumed remainder first. -/
def mantScan (hex : Bool) : List Char → Bool → Nat → Nat → Nat →
    List Char × Bool × Nat × Nat × Nat
  | [], sawDot, nd, m, fr => ([], sawDot, nd, m, fr)
  | ch :: rest, sawDot, nd, m, fr =>
    if ch = '_' then mantScan hex rest sawDot nd m fr
    else if ch = '.' then
      if sawDot then (ch :: rest, sawDot, nd, m, fr)
      else mantScan hex rest true nd m fr
    else
      match digitVal? hex ch with
      | some d =>
        mantScan hex rest sawDot (nd + 1) (m * (if hex then 16 else 10) + d)
          (if sawDot then fr + 1 else fr)
      | none => (ch :: rest, sawDot, nd, m, fr)

/-- Port of the exponent-digit loop of `strconv.readFloat`: consumes decimal
digits and underscores, accumulating the exponent (the saturation of the
exponent accumulator near 10000 in `strconv` is dropped; it never changes the
overflow/underflow verdict). -/
def expDigits : List Char → Nat → List Char × Nat
  | [], e => ([], e)
  | ch :: rest, e =>
    if ch = '_' then expDigits rest e
    else if '0' ≤ ch ∧ ch ≤ '9' then expDigits rest (e * 10 + (ch.toNat - 48))
    else (ch :: rest, e)

/-- Overflow threshold of `float64`: exact magnitudes at or above
`2^1024 - 2^970` round to infinity, which `strconv.ParseFloat` reports as a
range error. -/
def floatOverflowBound : ℚ := 2 ^ (1024 : ℕ) - 2 ^ (970 : ℕ)

/-- Final value assembly for the model of `ParseFloat`: magnitude
`m * base ^ e`; a magnitude at or above the `float64` overflow threshold is a
range error (`none`), everything else is kept exact. -/
def mkFloatVal (neg : Bool) (m : Nat) (base : ℚ) (e : Int) : Option GoFloat :=
  let q : ℚ := (m : ℚ) * base ^ e
  if floatOverflowBound ≤ q then none
  else some (GoFloat.finite (if neg then -q else q))

/-- Port of `strconv.special`: the whole string must be an optionally signed
`inf` or `infinity`, or an unsigned `nan`, case-insensitively. -/
def parseFloatSpecial? (l : List Char) : Option GoFloat :=
  match l with
  | [] => none
  | c0 :: rest =>
    if c0 = '+' ∨ c0 = '-' then
      let s1 := (rest.map lowerCh).asString
      if s1 = "inf" ∨ s1 = "infinity" then some (GoFloat.inf (c0 = '-')) else none
    else
      let s1 := (l.map lowerCh).asString
      if s1 = "inf" ∨ s1 = "infinity" then some (GoFloat.inf false)
      else if s1 = "nan" then some GoFloat.nan
      else none

/-- Model of `strconv.ParseFloat(s, 64)` following `readFloat`: special
spellings, else an optionally signed decimal mantissa with optional dot and
optional `e` exponent, or a hex mantissa with mandatory `p` exponent;
underscores as in Go literals; the whole string must be consumed.  `none`
models a non-nil error (syntax, or range on overflow); the IEEE-754 rounding
of the resulting value is abstracted to the exact rational. -/
def parseFloat? (s : String) : Option GoFloat :=
  let l := s.toList
  match parseFloatSpecial? l with
  | some f => some f
  | none =>
    if underscoreOK s then
      let sd : Bool × List Char :=
        match l with
        | '-' :: rest => (true, rest)
        | '+' :: rest => (false, rest)
        | _ => (false, l)
      let hx : Bool × List Char :=
        match sd.2 with
        | c0 :: c1 :: rest =>
          if c0 = '0' ∧ lowerCh c1 = 'x' then (true, rest) else (false, sd.2)
        | _ => (false, sd.2)
      let ms := mantScan hx.1 hx.2 false 0 0 0
      let nd := ms.2.2.1
      let m := ms.2.2.2.1
      let fr := ms.2.2.2.2
      if nd = 0 then none
      else
        match ms.1 with
        | [] =>
          if hx.1 then none
          else mkFloatVal sd.1 m 10 (-(fr : Int))
        | ec :: rest4 =>
          if lowerCh ec = (if hx.1 then 'p' else 'e') then
            let es : Int × List Char :=
              match rest4 with
              | '+' :: r => (1, r)
              | '-' :: r => (-1, r)
              | _ => (1, rest4)
            match es.2 with
            | [] => none
            | d0 :: _ =>
              if '0' ≤ d0 ∧ d0 ≤ '9' then
                let ed := expDigits es.2 0
                if ed.1 = [] then
                  if hx.1 then mkFloatVal sd.1 m 2 (es.1 * ed.2 - 4 * fr)
                  else mkFloatVal sd.1 m 10 (es.1 * ed.2 - (fr : Int))
                else none
              else none
          else none
    else none

/- Model of the `encoding/json` encoder at the granularity the claims need:
a JSON value datatype, a marshalability check (Go fails on unsupported values
such as channels, functions or cycles, here the `unsupported` constructor),
the compact encoding, and the indented encoding used when `SetIndent` was
given a non-empty indent. -/

/-- JSON values passed to `Json` (the `interface\x7b\x7d` argument).
`unsupported` stands for a value `encoding/json` cannot marshal. -/
inductive Jval where
  | null
  | bool (b : Bool)
  | num (n : Int)
  | str (s : String)
  | arr (xs : List Jval)
  | obj (fields : List (String × Jval))
  | unsupported

/-- Lower-case hex digit for a value below 16. -/
def hexDigitChar (n : Nat) : Char :=
  if n < 10 then Char.ofNat (48 + n) else Char.ofNat (87 + n)

/-- Escaping of one character inside a JSON string, as the `encoding/json`
encoder does with HTML escaping on (its default): quote, backslash, the
common control escapes, `\u00XX` for other control characters, and the HTML
characters and the line-separator code points as `\uXXXX`. -/
def jsonEscapeChar (ch : Char) : String :=
  if ch = '"' then "\\\""
  else if ch = '\\' then "\\\\"
  else if ch = '\n' then "\\n"
  else if ch = '\r' then "\\r"
  else if ch = '\t' then "\\t"
  else if ch = '<' then "\\u003c"
  else if ch = '>' then "\\u003e"
  else if ch = '&' then "\\u0026"
  else if ch.toNat < 32 then
    "\\u00" ++ String.mk [hexDigitChar (ch.toNat / 16), hexDigitChar (ch.toNat % 16)]
  else if ch.toNat = 8232 then "\\u2028"
  else if ch.toNat = 8233 then "\\u2029"
  else String.singleton ch

/-- JSON string literal with escaping. -/
def jsonQuote (s : String) : String :=
  "\"" ++ String.join (s.toList.map jsonEscapeChar) ++ "\""

mutual

/-- Whether `encoding/json` can marshal the value. -/
def Jval.marshalable : Jval → Bool
  | .null => true
  | .bool _ => true
  | .num _ => true
  | .str _ => true
  | .unsupported => false
  | .arr xs => jlistMarshalable xs
  | .obj fs => jfieldsMarshalable fs

/-- Marshalability of every element of an array. -/
def jlistMarshalable : List Jval → Bool
  | [] => true
  | x :: xs => Jval.marshalable x && jlistMarshalable xs

/-- Marshalability of every field value of an object. -/
def jfieldsMarshalable : List (String × Jval) → Bool
  | [] => true
  | f :: fs => Jval.marshalable f.2 && jfieldsMarshalable fs

end

mutual

/-- Compact JSON encoding, as the `encoding/json` encoder produces without an
indent: no spaces or newlines. -/
def jvalCompact : Jval → String
  | .null => "null"
  | .bool b => if b then "true" else "false"
  | .num n => toString n
  | .str s => jsonQuote s
  | .unsupported => ""
  | .arr xs => "[" ++ jlistCompact xs ++ "]"
  | .obj fs => "\x7b" ++ jfieldsCompact fs ++ "\x7d"

/-- Compact encoding of array elements, comma separated. -/
def jlistCompact : List Jval → String
  | [] => ""
  | [x] => jvalCompact x
  | x :: y :: rest => jvalCompact x ++ "," ++ jlistCompact (y :: rest)

/-- Compact encoding of object fields, comma separated. -/
def jfieldsCompact : List (String × Jval) → String
  | [] => ""
  | [f] => jsonQuote f.1 ++ ":" ++ jvalCompact f.2
  | f :: g :: rest => jsonQuote f.1 ++ ":" ++ jvalCompact f.2 ++ "," ++ jfieldsCompact (g :: rest)

end

/-- Indentation for one nesting depth: the per-level indent repeated. -/
def indStr (ind : String) (depth : Nat) : String :=
  String.join (List.replicate depth ind)

mutual

/-- Indented JSON encoding at a nesting depth, as `Encoder.SetIndent("", ind)`
produces: arrays and objects open with a newline, put each member on its own
line indented one level deeper, and close on a fresh line at the current
depth; empty arrays and objects stay on one line; the key separator is a
colon and a space. -/
def jvalIndent (ind : String) (depth : Nat) : Jval → String
  | .null => "null"
  | .bool b => if b then "true" else "false"
  | .num n => toString n
  | .str s => jsonQuote s
  | .unsupported => ""
  | .arr [] => "[]"
  | .arr (x :: xs) =>
    "[\n" ++ jlistIndent ind (depth + 1) (x :: xs) ++ "\n" ++ indStr ind depth ++ "]"
  | .obj [] => "\x7b\x7d"
  | .obj (f :: fs) =>
    "\x7b\n" ++ jfieldsIndent ind (depth + 1) (f :: fs) ++ "\n" ++ indStr ind depth ++ "\x7d"

/-- Indented encoding of array elements, one per line. -/
def jlistIndent (ind : String) (depth : Nat) : List Jval → String
  | [] => ""
  | [x] => indStr ind depth ++ jvalIndent ind depth x
  | x :: y :: rest =>
    indStr ind depth ++ jvalIndent ind depth x ++ ",\n" ++ jlistIndent ind depth (y :: rest)

/-- Indented encoding of object fields, one per line. -/
def jfieldsIndent (ind : String) (depth : Nat) : List (String × Jval) → String
  | [] => ""
  | [f] => indStr ind depth ++ jsonQuote f.1 ++ ": " ++ jvalIndent ind depth f.2
  | f :: g :: rest =>
    indStr ind depth ++ jsonQuote f.1 ++ ": " ++ jvalIndent ind depth f.2 ++ ",\n" ++
      jfieldsIndent ind (depth) (g :: rest)

end

/-- Model of `Encoder.Encode` on an encoder built by `json.NewEncoder` with
`SetIndent("", indent)` applied when `indent` is non-empty: the marshalled
value (compact when `indent` is empty, indented otherwise) followed by the
newline `Encode` appends; `none` when the value cannot be marshalled. -/
def encodeToString? (v : Jval) (indent : String) : Option String :=
  if Jval.marshalable v then
    some ((if indent = "" then jvalCompact v else jvalIndent indent 0 v) ++ "\n")
  else none

/-- UTF-8 bytes of a string, the `[]byte(s)` conversion. -/
def strBytes (s : String) : Bytes :=
  s.toUTF8.toList.map (fun b => b.toNat)

/- The methods of `Context` (file `context.go`), translated one to one.
Methods that mutate the context become functions returning the new context;
methods that also return an error return `Context × Option GoError`. -/

/-- `Context.Reset` (context.go:41-48): rebinds request, logger and cache,
resets the response around the new writer, clears the path and installs the
not-found handler. -/
def Context.Reset (c : Context) (r : Request) (w : NetWriter)
    (logger : Logger) (cache : Cache) : Context :=
  { c with
    request := r
    response := Response.ResetW w
    path := ""
    handler := NotFoundHandler
    logger := logger
    requestCache := cache }

/-- `Context.Redirect` (context.go:50-57): rejects codes outside
`[StatusMultipleChoices, StatusPermanentRedirect]` with
`errors.New("redirect code error")`, otherwise sets the Location header and
writes the status line. -/
def Context.Redirect (c : Context) (code : Int) (url : String) :
    Context × Option GoError :=
  if code < StatusMultipleChoices ∨ StatusPermanentRedirect < code then
    (c, some (GoError.errorString "redirect code error"))
  else
    ({ c with
        response := (c.response.setHeader HeaderLocation url).WriteHeader code },
      none)

/-- `Context.Request` getter (context.go:60-62). -/
def Context.Request' (c : Context) : Request := c.request

/-- `Context.Response` getter (context.go:64-66). -/
def Context.Response' (c : Context) : Response := c.response

/-- `Context.Path` getter (context.go:68-70). -/
def Context.Path (c : Context) : String := c.path

/-- `Context.Handler` getter (context.go:72-74). -/
def Context.Handler (c : Context) : HandlerFunc := c.handler

/-- `Context.RequestCache` getter (context.go:76-78). -/
def Context.RequestCache (c : Context) : Cache := c.requestCache

/-- `Context.Logger` getter (context.go:80-82). -/
def Context.Logger' (c : Context) : Logger := c.logger

/-- `Context.WriteContentType` (context.go:85-90): sets the Content-Type
header only when it is currently empty. -/
def Context.WriteContentType (c : Context) (value : String) : Context :=
  if c.response.header.get HeaderContentType = "" then
    { c with response := c.response.setHeader HeaderContentType value }
  else c

/-- `Context.Blob` (context.go:92-97): writes the status line, ensures the
content type through the guarded setter, writes the payload and returns the
error of the underlying write. -/
def Context.Blob (c : Context) (code : Int) (contentType : String)
    (data : Bytes) : Context × Option GoError :=
  let c1 := { c with response := c.response.WriteHeader code }
  let c2 := c1.WriteContentType contentType
  let wr := c2.response.Write data
  ({ c2 with response := wr.1 }, wr.2)

/-- `Context.Json` (context.go:99-107): builds an encoder on the response
(indented when `indent` is non-empty), ensures the JSON content type, stores
the code in the `Status` field of the response struct, and encodes the value
onto the response stream, propagating the encode error. -/
def Context.Json (c : Context) (code : Int) (value : Jval) (indent : String) :
    Context × Option GoError :=
  let c1 := c.WriteContentType MIMEApplicationJSONCharsetUTF8
  let c2 := { c1 with response := { c1.response with Status := code } }
  match encodeToString? value indent with
  | none => (c2, some GoError.encodeError)
  | some out =>
    let wr := c2.response.Write (strBytes out)
    ({ c2 with response := wr.1 }, wr.2)

/-- `Context.String` (context.go:109-111): delegates to `Blob` with the
plain-text content type and the bytes of the value. -/
def Context.String' (c : Context) (code : Int) (value : String) :
    Context × Option GoError :=
  c.Blob code MIMETextPlainCharsetUTF8 (strBytes value)

/-- `Context.QueryInt` (context.go:114-125). -/
def Context.QueryInt (c : Context) (key : String) (defaultValue : Int) : Int :=
  let value := c.request.query.get key
  if value = "" then defaultValue
  else
    match atoi? value with
    | none => defaultValue
    | some ret => ret

/-- `Context.QueryFloat` (context.go:127-138). -/
def Context.QueryFloat (c : Context) (key : String) (defaultValue : GoFloat) :
    GoFloat :=
  let value := c.request.query.get key
  if value = "" then defaultValue
  else
    match parseFloat? value with
    | none => defaultValue
    | some ret => ret

/-- `Context.QueryString` (context.go:140-146). -/
def Context.QueryString (c : Context) (key : String) (defaultValue : String) :
    String :=
  let value := c.request.query.get key
  if value = "" then defaultValue
  else value

/-- `Context.QueryParams` (context.go:148-150). -/
def Context.QueryParams (c : Context) : Values := c.request.query

/-- `Context.PostInt` (context.go:153-164). -/
def Context.PostInt (c : Context) (key : String) (defaultValue : Int) : Int :=
  let value := c.request.postForm.get key
  if value = "" then defaultValue
  else
    match atoi? value with
    | none => defaultValue
    | some ret => ret

/-- `Context.PostFloat` (context.go:166-177). -/
def Context.PostFloat (c : Context) (key : String) (defaultValue : GoFloat) :
    GoFloat :=
  let value := c.request.postForm.get key
  if value = "" then defaultValue
  else
    match parseFloat? value with
    | none => defaultValue
    | some ret => ret

/-- `Context.PostString` (context.go:179-186). -/
def Context.PostString (c : Context) (key : String) (defaultValue : String) :
    String :=
  let value := c.request.postForm.get key
  if value = "" then defaultValue
  else value

/-- `strings.HasPrefix`, on the character lists of the strings. -/
def strHasPref (s p : String) : Bool :=
  List.isPrefixOf p.toList s.toList

/-- `Context.FormParams` (context.go:191-202): multipart content types are
parsed with `ParseMultipartForm(defaultMemory)`, everything else with
`ParseForm()`; parse errors are propagated and on success the unified form
mapping of the request is returned. -/
def Context.FormParams (c : Context) : Except GoError Values :=
  if strHasPref (c.request.header.get HeaderContentType) MIMEMultipartPOSTForm then
    c.request.parseMultipart defaultMemory
  else
    c.request.parseForm

/-- Record of the delegated call `c.tong.Binder.Bind(i, *c)` made by
`Context.Bind`: which binder was consulted, the bind target, and the context
value passed by copy. -/
structure BindInvocation where
  binder : Nat
  target : Nat
  ctx : Context

/-- `Context.Bind` (context.go:205-207): pure delegation to the binder of the
owning framework instance, passing the target and a copy of the context. -/
def Context.Bind (c : Context) (i : Nat) : BindInvocation :=
  { binder := c.tong.Binder, target := i, ctx := c }

/-- One call of a state-changing method of `Context`, for reachability
statements about states produced by the operations of the context itself. -/
inductive Op where
  | reset (r : Request) (w : NetWriter) (lg : Logger) (cc : Cache)
  | redirect (code : Int) (url : String)
  | writeContentType (v : String)
  | blob (code : Int) (ct : String) (data : Bytes)
  | json (code : Int) (v : Jval) (ind : String)
  | strWrite (code : Int) (v : String)

/-- Applying one operation to the context (errors discarded, the state
kept). -/
def applyOp (c : Context) : Op → Context
  | .reset r w lg cc => c.Reset r w lg cc
  | .redirect code url => (c.Redirect code url).1
  | .writeContentType v => c.WriteContentType v
  | .blob code ct data => (c.Blob code ct data).1
  | .json code v ind => (c.Json code v ind).1
  | .strWrite code v => (c.String' code v).1

/-- Applying a sequence of operations in order. -/
def applyOps (c : Context) (ops : List Op) : Context :=
  ops.foldl applyOp c

/- Helper lemmas about the header model, the response primitives, and which
fields each context operation can change. -/

/-- Setting a header key makes Get on that key return the value. -/
theorem Header.get_set_self (h : Header) (k v : String) : (h.set k v).get k = v := by
  simp [Header.get, Header.set, List.find?]

/-- Get on a key that appears nowhere in the values returns the empty
string. -/
theorem Values.get_absent (v : Values) (key : String)
    (h : ∀ p ∈ v.entries, p.1 ≠ key) : v.get key = "" := by
  unfold Values.get
  have hf : v.entries.find? (fun p => p.1 = key) = none := by
    rw [List.find?_eq_none]
    intro p hp
    simpa using h p hp
  rw [hf]

/-- Writing the body never changes the header map of the response. -/
theorem Response.Write_fst_header (resp : Response) (data : Bytes) :
    (resp.Write data).1.header = resp.header := by
  unfold Response.Write; split <;> rfl

/-- Writing the body never changes the stored status. -/
theorem Response.Write_fst_Status (resp : Response) (data : Bytes) :
    (resp.Write data).1.Status = resp.Status := by
  unfold Response.Write; split <;> rfl

/-- Writing the body never commits the status line. -/
theorem Response.Write_fst_committed (resp : Response) (data : Bytes) :
    (resp.Write data).1.committed = resp.committed := by
  unfold Response.Write; split <;> rfl

/-- A write on a healthy writer appends the bytes and reports no error. -/
theorem Response.Write_healthy (resp : Response) (data : Bytes)
    (h : resp.writer.healthy = true) :
    (resp.Write data).2 = none ∧
    (resp.Write data).1.writer.written = resp.writer.written ++ data := by
  unfold Response.Write
  rw [if_pos h]
  exact ⟨rfl, rfl⟩

/-- A write on an unhealthy writer changes nothing and reports the write
error. -/
theorem Response.Write_unhealthy (resp : Response) (data : Bytes)
    (h : resp.writer.healthy = false) :
    resp.Write data = (resp, some GoError.writeError) := by
  unfold Response.Write
  rw [if_neg]
  rw [h]
  exact Bool.false_ne_true

/-- Writing the status line on an uncommitted response stores the code and
commits. -/
theorem Response.WriteHeader_uncommitted (resp : Response) (code : Int)
    (h : resp.committed = false) :
    resp.WriteHeader code = { resp with Status := code, committed := true } := by
  unfold Response.WriteHeader
  rw [if_neg]
  rw [h]
  exact Bool.false_ne_true

/-- Writing the status line never changes the header map. -/
theorem Response.WriteHeader_header (resp : Response) (code : Int) :
    (resp.WriteHeader code).header = resp.header := by
  unfold Response.WriteHeader; split <;> rfl

/-- Writing the status line never changes the writer. -/
theorem Response.WriteHeader_writer (resp : Response) (code : Int) :
    (resp.WriteHeader code).writer = resp.writer := by
  unfold Response.WriteHeader; split <;> rfl

/-- Effect of the guarded content-type setter on the Content-Type header:
first write wins. -/
theorem wct_get (c : Context) (v : String) :
    (c.WriteContentType v).response.header.get HeaderContentType =
      if c.response.header.get HeaderContentType = "" then v
      else c.response.header.get HeaderContentType := by
  unfold Context.WriteContentType
  split
  · exact Header.get_set_self c.response.header HeaderContentType v
  · rfl

/-- The guarded content-type setter touches only the header map. -/
theorem wct_frame (c : Context) (v : String) :
    (c.WriteContentType v).response.Status = c.response.Status ∧
    (c.WriteContentType v).response.committed = c.response.committed ∧
    (c.WriteContentType v).response.writer = c.response.writer := by
  unfold Context.WriteContentType
  split <;> exact ⟨rfl, rfl, rfl⟩

/-- `WriteContentType` changes only the response. -/
theorem wct_only_response (c : Context) (v : String) :
    c.WriteContentType v = { c with response := (c.WriteContentType v).response } := by
  unfold Context.WriteContentType
  split <;> rfl

/-- `Redirect` changes only the response. -/
theorem redirect_only_response (c : Context) (code : Int) (url : String) :
    (c.Redirect code url).1 = { c with response := (c.Redirect code url).1.response } := by
  unfold Context.Redirect
  split <;> rfl

/-- `Blob` changes only the response. -/
theorem blob_only_response (c : Context) (code : Int) (ct : String) (data : Bytes) :
    (c.Blob code ct data).1 = { c with response := (c.Blob code ct data).1.response } := by
  simp only [Context.Blob, Context.WriteContentType]
  split <;> rfl

/-- `Json` changes only the response. -/
theorem json_only_response (c : Context) (code : Int) (v : Jval) (ind : String) :
    (c.Json code v ind).1 = { c with response := (c.Json code v ind).1.response } := by
  simp only [Context.Json, Context.WriteContentType]
  rcases hm : encodeToString? v ind with _ | out <;> simp only [hm] <;> split <;> rfl

/-- `String` changes only the response. -/
theorem string_only_response (c : Context) (code : Int) (v : String) :
    (c.String' code v).1 = { c with response := (c.String' code v).1.response } := by
  exact blob_only_response c code MIMETextPlainCharsetUTF8 (strBytes v)

/-- No context operation changes the framework back-reference. -/
theorem applyOp_tong (c : Context) (op : Op) : (applyOp c op).tong = c.tong := by
  cases op with
  | reset r w lg cc => rfl
  | redirect code url =>
    show ((c.Redirect code url).1).tong = c.tong
    rw [redirect_only_response]
  | writeContentType v =>
    show (c.WriteContentType v).tong = c.tong
    rw [wct_only_response]
  | blob code ct data =>
    show ((c.Blob code ct data).1).tong = c.tong
    rw [blob_only_response]
  | json code v ind =>
    show ((c.Json code v ind).1).tong = c.tong
    rw [json_only_response]
  | strWrite code v =>
    show ((c.String' code v).1).tong = c.tong
    rw [string_only_response]

/-- Every context operation either keeps the handler or installs the
not-found handler. -/
theorem applyOp_handler (c : Context) (op : Op) :
    (applyOp c op).handler = c.handler ∨ (applyOp c op).handler = NotFoundHandler := by
  cases op with
  | reset r w lg cc => right; rfl
  | redirect code url =>
    left
    show ((c.Redirect code url).1).handler = c.handler
    rw [redirect_only_response]
  | writeContentType v =>
    left
    show (c.WriteContentType v).handler = c.handler
    rw [wct_only_response]
  | blob code ct data =>
    left
    show ((c.Blob code ct data).1).handler = c.handler
    rw [blob_only_response]
  | json code v ind =>
    left
    show ((c.Json code v ind).1).handler = c.handler
    rw [json_only_response]
  | strWrite code v =>
    left
    show ((c.String' code v).1).handler = c.handler
    rw [string_only_response]

/-- The framework back-reference survives any sequence of context
operations. -/
theorem applyOps_tong (c : Context) (ops : List Op) :
    (applyOps c ops).tong = c.tong := by
  induction ops generalizing c with
  | nil => rfl
  | cons op rest ih =>
    show (applyOps (applyOp c op) rest).tong = c.tong
    rw [ih (applyOp c op), applyOp_tong]

/-- After any sequence of operations starting from a non-nil handler, or any
sequence containing a reset, the handler is non-nil. -/
theorem applyOps_handler_aux (ops : List Op) : ∀ c : Context,
    (c.handler ≠ HandlerFunc.nilHandler ∨ ∃ r w lg cc, Op.reset r w lg cc ∈ ops) →
    (applyOps c ops).handler ≠ HandlerFunc.nilHandler := by
  induction ops with
  | nil =>
    intro c h
    rcases h with hc | ⟨r, w, lg, cc, hmem⟩
    · exact hc
    · exact absurd hmem (List.not_mem_nil _)
  | cons op rest ih =>
    intro c h
    show (applyOps (applyOp c op) rest).handler ≠ HandlerFunc.nilHandler
    apply ih
    rcases h with hc | ⟨r, w, lg, cc, hmem⟩
    · rcases applyOp_handler c op with he | he
      · left; rw [he]; exact hc
      · left; rw [he]; simp [NotFoundHandler]
    · rcases List.mem_cons.mp hmem with heq | hmem2
      · left
        rw [← heq]
        show (c.Reset r w lg cc).handler ≠ HandlerFunc.nilHandler
        simp [Context.Reset, NotFoundHandler]
      · right; exact ⟨r, w, lg, cc, hmem2⟩

/- Claim theorems. -/

/-- C1: for every code in [300,308], `Redirect(code, url)` returns nil, sets
the Location header to exactly `url` and (on a response whose status line is
not yet written) writes the status line with that code; for every code
outside [300,308] it returns the `InvalidArgument` error
`errors.New("redirect code error")` and mutates nothing, in particular no
header. -/
theorem redirect_range_spec (c : Context) (code : Int) (url : String) :
    (StatusMultipleChoices ≤ code → code ≤ StatusPermanentRedirect →
      (c.Redirect code url).2 = none ∧
      (c.Redirect code url).1.response.header.get HeaderLocation = url ∧
      (c.response.committed = false →
        (c.Redirect code url).1.response.Status = code ∧
        (c.Redirect code url).1.response.committed = true)) ∧
    (code < StatusMultipleChoices ∨ StatusPermanentRedirect < code →
      (c.Redirect code url).2 = some (GoError.errorString "redirect code error") ∧
      (c.Redirect code url).1 = c) := by
  constructor
  · intro h1 h2
    have hcond : ¬ (code < StatusMultipleChoices ∨ StatusPermanentRedirect < code) := by
      push_neg
      exact ⟨h1, h2⟩
    unfold Context.Redirect
    rw [if_neg hcond]
    refine ⟨rfl, ?_, ?_⟩
    · rw [Response.WriteHeader_header]
      exact Header.get_set_self c.response.header HeaderLocation url
    · intro hcom
      have hcom2 : (c.response.setHeader HeaderLocation url).committed = false := hcom
      rw [Response.WriteHeader_uncommitted _ code hcom2]
      exact ⟨rfl, rfl⟩
  · intro h
    unfold Context.Redirect
    rw [if_pos h]
    exact ⟨rfl, rfl⟩

/-- C2: the scalar getters `QueryInt`, `QueryFloat`, `PostInt`, `PostFloat`
return exactly the caller-supplied default both when the key is absent from
the parameter source and when the value fails to parse as the target numeric
type, with nothing distinguishing the two cases; when the value parses, the
parsed number is returned. -/
theorem scalar_getters_spec (c : Context) (key : String) (di : Int) (df : GoFloat) :
    ((∀ p ∈ c.request.query.entries, p.1 ≠ key) →
        c.QueryInt key di = di ∧ c.QueryFloat key df = df) ∧
    ((∀ p ∈ c.request.postForm.entries, p.1 ≠ key) →
        c.PostInt key di = di ∧ c.PostFloat key df = df) ∧
    (atoi? (c.request.query.get key) = none → c.QueryInt key di = di) ∧
    (parseFloat? (c.request.query.get key) = none → c.QueryFloat key df = df) ∧
    (atoi? (c.request.postForm.get key) = none → c.PostInt key di = di) ∧
    (parseFloat? (c.request.postForm.get key) = none → c.PostFloat key df = df) ∧
    (∀ n : Int, atoi? (c.request.query.get key) = some n → c.QueryInt key di = n) ∧
    (∀ q : GoFloat, parseFloat? (c.request.query.get key) = some q →
        c.QueryFloat key df = q) ∧
    (∀ n : Int, atoi? (c.request.postForm.get key) = some n → c.PostInt key di = n) ∧
    (∀ q : GoFloat, parseFloat? (c.request.postForm.get key) = some q →
        c.PostFloat key df = q) := by
  have hq := Values.get_absent c.request.query key
  have hp := Values.get_absent c.request.postForm key
  refine ⟨?_, ?_, ?_, ?_, ?_, ?_, ?_, ?_, ?_, ?_⟩
  · intro ha
    simp only [Context.QueryInt, Context.QueryFloat]
    rw [hq ha]
    exact ⟨rfl, rfl⟩
  · intro ha
    simp only [Context.PostInt, Context.PostFloat]
    rw [hp ha]
    exact ⟨rfl, rfl⟩
  · intro hn
    simp only [Context.QueryInt]
    split
    · rfl
    · rw [hn]
  · intro hn
    simp only [Context.QueryFloat]
    split
    · rfl
    · rw [hn]
  · intro hn
    simp only [Context.PostInt]
    split
    · rfl
    · rw [hn]
  · intro hn
    simp only [Context.PostFloat]
    split
    · rfl
    · rw [hn]
  · intro n hn
    simp only [Context.QueryInt]
    split
    · rename_i hv
      rw [hv] at hn
      rw [(by decide : atoi? "" = none)] at hn
      exact Option.noConfusion hn
    · rw [hn]
  · intro q hn
    simp only [Context.QueryFloat]
    split
    · rename_i hv
      rw [hv] at hn
      rw [(by decide : parseFloat? "" = none)] at hn
      exact Option.noConfusion hn
    · rw [hn]
  · intro n hn
    simp only [Context.PostInt]
    split
    · rename_i hv
      rw [hv] at hn
      rw [(by decide : atoi? "" = none)] at hn
      exact Option.noConfusion hn
    · rw [hn]
  · intro q hn
    simp only [Context.PostFloat]
    split
    · rename_i hv
      rw [hv] at hn
      rw [(by decide : parseFloat? "" = none)] at hn
      exact Option.noConfusion hn
    · rw [hn]

/-- C3: `WriteContentType` is first-write-wins: on an empty Content-Type
header it installs the supplied value, otherwise it leaves the header
unchanged; two successive calls with different (non-empty) values starting
from an empty header leave the first value, never the second. -/
theorem writeContentType_first_wins (c : Context) (v1 v2 : String) :
    ((c.WriteContentType v1).response.header.get HeaderContentType =
      if c.response.header.get HeaderContentType = "" then v1
      else c.response.header.get HeaderContentType) ∧
    (c.response.header.get HeaderContentType = "" → v1 ≠ "" → v2 ≠ v1 →
      ((c.WriteContentType v1).WriteContentType v2).response.header.get HeaderContentType
          = v1 ∧
      ((c.WriteContentType v1).WriteContentType v2).response.header.get HeaderContentType
          ≠ v2) := by
  refine ⟨wct_get c v1, ?_⟩
  intro h0 h1 h2
  have hfirst : (c.WriteContentType v1).response.header.get HeaderContentType = v1 := by
    rw [wct_get c v1, if_pos h0]
  have hsecond :
      ((c.WriteContentType v1).WriteContentType v2).response.header.get HeaderContentType
        = v1 := by
    rw [wct_get (c.WriteContentType v1) v2, if_neg, hfirst]
    rw [hfirst]
    exact h1
  refine ⟨hsecond, ?_⟩
  rw [hsecond]
  exact Ne.symm h2

/-- C4: `Reset` rebinds request, logger and cache, clears the path, installs
the deterministic not-found handler and rewraps the response around the new
writer with no residual header or status state; the result does not depend
on any per-request state of the previous context. -/
theorem reset_rebinds_spec (c : Context) (r : Request) (w : NetWriter)
    (lg : Logger) (cc : Cache) :
    (c.Reset r w lg cc).request = r ∧
    (c.Reset r w lg cc).logger = lg ∧
    (c.Reset r w lg cc).requestCache = cc ∧
    (c.Reset r w lg cc).path = "" ∧
    (c.Reset r w lg cc).handler = NotFoundHandler ∧
    (c.Reset r w lg cc).response.writer = w ∧
    (c.Reset r w lg cc).response.committed = false ∧
    (∀ k : String, (c.Reset r w lg cc).response.header.get k = "") ∧
    (∀ c2 : Context, c2.tong = c.tong → c2.Reset r w lg cc = c.Reset r w lg cc) := by
  refine ⟨rfl, rfl, rfl, rfl, rfl, rfl, rfl, fun k => rfl, ?_⟩
  intro c2 ht
  cases c with
  | mk req1 resp1 path1 h1 lg1 cc1 t1 =>
    cases c2 with
    | mk req2 resp2 path2 h2 lg2 cc2 t2 =>
      simp only at ht
      unfold Context.Reset
      rw [ht]

/-- C5: `Json(code, value, indent)` sets the Content-Type header (only when
unset) to the JSON-with-UTF8-charset identifier, stores the code in the
`Status` field without invoking the status-line-writing primitive (the
committed flag is untouched), encodes the value onto the response stream
(compact when the indent is empty, indented with the given per-level indent
otherwise, with the trailing newline of `Encode`), and returns the encode
error when the value cannot be marshalled. -/
theorem json_spec (c : Context) (code : Int) (v : Jval) (ind : String) :
    (c.Json code v ind).1.response.Status = code ∧
    (c.Json code v ind).1.response.committed = c.response.committed ∧
    ((c.Json code v ind).1.response.header.get HeaderContentType =
      if c.response.header.get HeaderContentType = "" then MIMEApplicationJSONCharsetUTF8
      else c.response.header.get HeaderContentType) ∧
    (Jval.marshalable v = false →
      (c.Json code v ind).2 = some GoError.encodeError ∧
      (c.Json code v ind).1.response.writer = c.response.writer) ∧
    (Jval.marshalable v = true → c.response.writer.healthy = true →
      (c.Json code v ind).2 = none ∧
      (c.Json code v ind).1.response.writer.written =
        c.response.writer.written ++
          strBytes ((if ind = "" then jvalCompact v else jvalIndent ind 0 v) ++ "\n")) := by
  obtain ⟨hSt, hCom, hWr⟩ := wct_frame c MIMEApplicationJSONCharsetUTF8
  cases hmar : Jval.marshalable v with
  | false =>
    have hm : encodeToString? v ind = none := by
      simp [encodeToString?, hmar]
    have hj : c.Json code v ind =
        ({ c.WriteContentType MIMEApplicationJSONCharsetUTF8 with
            response := { (c.WriteContentType MIMEApplicationJSONCharsetUTF8).response with
                          Status := code } }, some GoError.encodeError) := by
      simp only [Context.Json, hm]
    rw [hj]
    refine ⟨rfl, hCom, wct_get c MIMEApplicationJSONCharsetUTF8, fun _ => ⟨rfl, hWr⟩, ?_⟩
    intro htrue _
    exact Bool.noConfusion htrue
  | true =>
    have hm : encodeToString? v ind =
        some ((if ind = "" then jvalCompact v else jvalIndent ind 0 v) ++ "\n") := by
      simp [encodeToString?, hmar]
    have hj : c.Json code v ind =
        ({ c.WriteContentType MIMEApplicationJSONCharsetUTF8 with
            response := (({ (c.WriteContentType MIMEApplicationJSONCharsetUTF8).response with
                Status := code } : Response).Write
              (strBytes ((if ind = "" then jvalCompact v else jvalIndent ind 0 v) ++ "\n"))).1 },
          (({ (c.WriteContentType MIMEApplicationJSONCharsetUTF8).response with
                Status := code } : Response).Write
              (strBytes ((if ind = "" then jvalCompact v else jvalIndent ind 0 v) ++ "\n"))).2) := by
      simp only [Context.Json, hm]
    rw [hj]
    refine ⟨?_, ?_, ?_, ?_, ?_⟩
    · rw [Response.Write_fst_Status]
    · rw [Response.Write_fst_committed]
      exact hCom
    · rw [Response.Write_fst_header]
      exact wct_get c MIMEApplicationJSONCharsetUTF8
    · intro hfalse
      exact Bool.noConfusion hfalse
    · intro _ hheal
      have hw : ({ (c.WriteContentType MIMEApplicationJSONCharsetUTF8).response with
          Status := code } : Response).writer = c.response.writer := hWr
      have hh : ({ (c.WriteContentType MIMEApplicationJSONCharsetUTF8).response with
          Status := code } : Response).writer.healthy = true := by
        rw [hw]
        exact hheal
      obtain ⟨he, hwrn⟩ := Response.Write_healthy _ _ hh
      refine ⟨he, ?_⟩
      rw [hwrn, hw]

/-- C6: `Blob(code, contentType, data)` writes the status line with the code
(on a response whose status line is not yet written), sets the Content-Type
header through the guarded setter, writes the payload verbatim, returns nil
when the underlying write succeeds and propagates the write error
unmodified when it fails. -/
theorem blob_spec (c : Context) (code : Int) (ct : String) (data : Bytes) :
    (c.response.committed = false →
      (c.Blob code ct data).1.response.Status = code ∧
      (c.Blob code ct data).1.response.committed = true) ∧
    ((c.Blob code ct data).1.response.header.get HeaderContentType =
      if c.response.header.get HeaderContentType = "" then ct
      else c.response.header.get HeaderContentType) ∧
    (c.response.writer.healthy = true →
      (c.Blob code ct data).2 = none ∧
      (c.Blob code ct data).1.response.writer.written =
        c.response.writer.written ++ data) ∧
    (c.response.writer.healthy = false →
      (c.Blob code ct data).2 = some GoError.writeError) := by
  have hw : (({ c with response := c.response.WriteHeader code } : Context).WriteContentType
      ct).response.writer = c.response.writer := by
    rw [(wct_frame ({ c with response := c.response.WriteHeader code }) ct).2.2]
    exact Response.WriteHeader_writer c.response code
  refine ⟨?_, ?_, ?_, ?_⟩
  · intro hcom
    constructor
    · show ((({ c with response := c.response.WriteHeader code } : Context).WriteContentType
          ct).response.Write data).1.Status = code
      rw [Response.Write_fst_Status]
      rw [(wct_frame ({ c with response := c.response.WriteHeader code }) ct).1]
      show (c.response.WriteHeader code).Status = code
      rw [Response.WriteHeader_uncommitted c.response code hcom]
    · show ((({ c with response := c.response.WriteHeader code } : Context).WriteContentType
          ct).response.Write data).1.committed = true
      rw [Response.Write_fst_committed]
      rw [(wct_frame ({ c with response := c.response.WriteHeader code }) ct).2.1]
      show (c.response.WriteHeader code).committed = true
      rw [Response.WriteHeader_uncommitted c.response code hcom]
  · show ((({ c with response := c.response.WriteHeader code } : Context).WriteContentType
        ct).response.Write data).1.header.get HeaderContentType = _
    rw [Response.Write_fst_header]
    rw [wct_get ({ c with response := c.response.WriteHeader code }) ct]
    rw [show ({ c with response := c.response.WriteHeader code } : Context).response.header
        = c.response.header from Response.WriteHeader_header c.response code]
  · intro hheal
    have hh : (({ c with response := c.response.WriteHeader code } : Context).WriteContentType
        ct).response.writer.healthy = true := by
      rw [hw]
      exact hheal
    obtain ⟨he, hwrn⟩ := Response.Write_healthy _ data hh
    refine ⟨he, ?_⟩
    show ((({ c with response := c.response.WriteHeader code } : Context).WriteContentType
        ct).response.Write data).1.writer.written = c.response.writer.written ++ data
    rw [hwrn, hw]
  · intro hheal
    have hh : (({ c with response := c.response.WriteHeader code } : Context).WriteContentType
        ct).response.writer.healthy = false := by
      rw [hw]
      exact hheal
    show ((({ c with response := c.response.WriteHeader code } : Context).WriteContentType
        ct).response.Write data).2 = some GoError.writeError
    rw [Response.Write_unhealthy _ data hh]

/-- C7: `FormParams()` dispatches on the Content-Type header: a multipart
content type triggers multipart parsing with the in-memory threshold of
exactly 33554432 bytes (32 MiB), anything else standard URL-encoded form
parsing; the outcome (the unified form mapping on success, the parse error on
failure) is returned unchanged. -/
theorem formParams_spec (c : Context) :
    defaultMemory = 33554432 ∧
    (strHasPref (c.request.header.get HeaderContentType) MIMEMultipartPOSTForm = true →
      c.FormParams = c.request.parseMultipart 33554432) ∧
    (strHasPref (c.request.header.get HeaderContentType) MIMEMultipartPOSTForm = false →
      c.FormParams = c.request.parseForm) := by
  refine ⟨rfl, ?_, ?_⟩
  · intro h
    unfold Context.FormParams
    rw [if_pos h]
    exact congrArg c.request.parseMultipart (by decide)
  · intro h
    unfold Context.FormParams
    rw [if_neg (by simp [h])]

/-- C8: `String(code, value)` is exactly `Blob` at the plain-text content
type and the UTF-8 bytes of the value: same state effects, same error. -/
theorem string_delegates_to_blob (c : Context) (code : Int) (value : String) :
    c.String' code value = c.Blob code MIMETextPlainCharsetUTF8 (strBytes value) := rfl

/-- C9: the handler field is never nil in any state reached through the
operations of the context itself: starting from a non-nil handler, or along
any operation sequence containing a `Reset`, `Handler()` returns a non-nil
callable, and right after a `Reset` it is the deterministic not-found
handler. -/
theorem handler_never_nil (c : Context) (ops : List Op)
    (h : c.handler ≠ HandlerFunc.nilHandler ∨
      ∃ r w lg cc, Op.reset r w lg cc ∈ ops) :
    (applyOps c ops).Handler ≠ HandlerFunc.nilHandler ∧
    ∀ r w lg cc, (c.Reset r w lg cc).Handler = NotFoundHandler :=
  ⟨applyOps_handler_aux ops c h, fun _ _ _ _ => rfl⟩

/-- C10: no context operation, in particular no `Reset`, touches the
framework back-reference, so `Bind` after any sequence of operations still
delegates to the binder of the framework instance the context started
with. -/
theorem bind_same_binder_after_resets (c : Context) (ops : List Op) (i : Nat) :
    (∀ r w lg cc, (c.Reset r w lg cc).tong = c.tong) ∧
    (applyOps c ops).tong = c.tong ∧
    ((applyOps c ops).Bind i).binder = c.tong.Binder := by
  refine ⟨fun r w lg cc => rfl, applyOps_tong c ops, ?_⟩
  show ((applyOps c ops).tong).Binder = c.tong.Binder
  rw [applyOps_tong]

/- Concrete fixtures evaluated by the witnesses. -/

/-- Concrete request with a multipart content type, numeric and non-numeric
query and form values. -/
def reqW : Request :=
  { header := ⟨[(HeaderContentType, "multipart/form-data; boundary=x")]⟩
    query := ⟨[("n", "42"), ("bad", "abc"), ("f", "1.5")]⟩
    postForm := ⟨[("n", "42"), ("bad", "abc"), ("f", "1.5")]⟩
    parseMultipart := fun m =>
      if m = 33554432 then Except.ok ⟨[("a", "b")]⟩ else Except.error GoError.parseError
    parseForm := Except.ok ⟨[("q", "v")]⟩ }

/-- Concrete request with a URL-encoded content type. -/
def reqF : Request :=
  { header := ⟨[(HeaderContentType, MIMEPOSTForm)]⟩
    query := ⟨[]⟩
    postForm := ⟨[]⟩
    parseMultipart := fun _ => Except.error GoError.parseError
    parseForm := Except.ok ⟨[("q", "v")]⟩ }

/-- Healthy transport writer. -/
def wrHealthy : NetWriter := { written := [], healthy := true }

/-- Closed transport writer: every write fails. -/
def wrClosed : NetWriter := { written := [], healthy := false }

/-- Concrete context with a fresh response over a healthy connection. -/
def ctxW : Context :=
  { request := reqW
    response := Response.ResetW wrHealthy
    path := "/p"
    handler := HandlerFunc.user 1
    logger := ⟨0⟩
    requestCache := ⟨0⟩
    tong := ⟨7⟩ }

/-- Concrete context bound to the URL-encoded request. -/
def ctxF : Context := { ctxW with request := reqF }

/-- Concrete context over a closed connection. -/
def ctxClosed : Context := { ctxW with response := Response.ResetW wrClosed }

/-- Concrete context with a nil handler, dirty path and dirty response
state. -/
def ctxDirty : Context :=
  { request := reqF
    response := { writer := { written := [1, 2], healthy := true }
                  header := ⟨[(HeaderContentType, "text/html")]⟩
                  Status := 500
                  committed := true }
    path := "/other"
    handler := HandlerFunc.nilHandler
    logger := ⟨9⟩
    requestCache := ⟨9⟩
    tong := ⟨7⟩ }

/- Witnesses. -/

/-- Witness for C1: code 302 redirects, code 299 is rejected with the
context untouched. -/
theorem redirect_range_spec_w :
    ((ctxW.Redirect 302 "/target").2 = none ∧
      (ctxW.Redirect 302 "/target").1.response.header.get HeaderLocation = "/target" ∧
      (ctxW.Redirect 302 "/target").1.response.Status = 302 ∧
      (ctxW.Redirect 302 "/target").1.response.committed = true) ∧
    ((ctxW.Redirect 299 "/target").2 = some (GoError.errorString "redirect code error") ∧
      (ctxW.Redirect 299 "/target").1 = ctxW) := by
  obtain ⟨h1, _⟩ := redirect_range_spec ctxW 302 "/target"
  obtain ⟨_, g2⟩ := redirect_range_spec ctxW 299 "/target"
  obtain ⟨ha, hb, hc⟩ := h1 (by decide) (by decide)
  obtain ⟨hd, he⟩ := hc rfl
  exact ⟨⟨ha, hb, hd, he⟩, g2 (by decide)⟩

/-- Witness for C2: present numeric values parse, absent keys and
non-numeric values fall back to the default. -/
theorem scalar_getters_spec_w :
    ctxW.QueryInt "n" 7 = 42 ∧
    ctxW.QueryInt "bad" 7 = 7 ∧
    ctxW.QueryInt "missing" 7 = 7 ∧
    ctxW.QueryFloat "f" (GoFloat.finite 0) = GoFloat.finite (3 / 2) ∧
    ctxW.QueryFloat "bad" GoFloat.nan = GoFloat.nan ∧
    ctxW.PostInt "n" 7 = 42 ∧
    ctxW.PostFloat "bad" (GoFloat.finite 9) = GoFloat.finite 9 ∧
    ctxW.PostInt "missing" 7 = 7 := by
  have hf : parseFloat? (ctxW.request.query.get "f") = some (GoFloat.finite (3 / 2)) := by
    have h1 : parseFloat? (ctxW.request.query.get "f") = mkFloatVal false 15 10 (-1) := rfl
    rw [h1]
    unfold mkFloatVal
    rw [if_neg (by norm_num [floatOverflowBound])]
    norm_num
  refine ⟨?_, ?_, ?_, ?_, ?_, ?_, ?_, ?_⟩
  · exact (scalar_getters_spec ctxW "n" 7 (GoFloat.finite 0)).2.2.2.2.2.2.1 42 (by decide)
  · exact (scalar_getters_spec ctxW "bad" 7 (GoFloat.finite 0)).2.2.1 (by decide)
  · exact ((scalar_getters_spec ctxW "missing" 7 (GoFloat.finite 0)).1 (by decide)).1
  · exact (scalar_getters_spec ctxW "f" 7 (GoFloat.finite 0)).2.2.2.2.2.2.2.1
      (GoFloat.finite (3 / 2)) hf
  · exact (scalar_getters_spec ctxW "bad" 7 GoFloat.nan).2.2.2.1 (by decide)
  · exact (scalar_getters_spec ctxW "n" 7 (GoFloat.finite 0)).2.2.2.2.2.2.2.2.1 42 (by decide)
  · exact (scalar_getters_spec ctxW "bad" 7 (GoFloat.finite 9)).2.2.2.2.2.1 (by decide)
  · exact ((scalar_getters_spec ctxW "missing" 7 (GoFloat.finite 0)).2.1 (by decide)).1

/-- Witness for C3: after setting text/html and then attempting
application/xml, the header still holds text/html. -/
theorem writeContentType_first_wins_w :
    ((ctxW.WriteContentType "text/html").WriteContentType
        "application/xml").response.header.get HeaderContentType = "text/html" ∧
    ((ctxW.WriteContentType "text/html").WriteContentType
        "application/xml").response.header.get HeaderContentType ≠ "application/xml" := by
  obtain ⟨_, h2⟩ := writeContentType_first_wins ctxW "text/html" "application/xml"
  exact h2 rfl (by decide) (by decide)

/-- Witness for C4: resetting a dirty context and a clean context with the
same framework instance yields identical contexts with clean state. -/
theorem reset_rebinds_spec_w :
    (ctxW.Reset reqF wrHealthy ⟨3⟩ ⟨4⟩).path = "" ∧
    (ctxW.Reset reqF wrHealthy ⟨3⟩ ⟨4⟩).handler = NotFoundHandler ∧
    (ctxW.Reset reqF wrHealthy ⟨3⟩ ⟨4⟩).response.header.get HeaderContentType = "" ∧
    ctxDirty.Reset reqF wrHealthy ⟨3⟩ ⟨4⟩ = ctxW.Reset reqF wrHealthy ⟨3⟩ ⟨4⟩ := by
  obtain ⟨_, _, _, h4, h5, _, _, h8, h9⟩ := reset_rebinds_spec ctxW reqF wrHealthy ⟨3⟩ ⟨4⟩
  exact ⟨h4, h5, h8 HeaderContentType, h9 ctxDirty rfl⟩

/-- Witness for C5: a compact JSON write on a fresh context stores the code
without committing, sets the JSON content type and reports no error, while
an unmarshalable value reports the encode error. -/
theorem json_spec_w :
    (ctxW.Json 201 (Jval.obj [("a", Jval.num 1)]) "").1.response.Status = 201 ∧
    (ctxW.Json 201 (Jval.obj [("a", Jval.num 1)]) "").1.response.committed = false ∧
    (ctxW.Json 201 (Jval.obj [("a", Jval.num 1)]) "").1.response.header.get
        HeaderContentType = MIMEApplicationJSONCharsetUTF8 ∧
    (ctxW.Json 201 (Jval.obj [("a", Jval.num 1)]) "").2 = none ∧
    (ctxW.Json 201 Jval.unsupported "").2 = some GoError.encodeError := by
  obtain ⟨h1, h2, h3, _, h5⟩ := json_spec ctxW 201 (Jval.obj [("a", Jval.num 1)]) ""
  obtain ⟨_, _, _, g4, _⟩ := json_spec ctxW 201 Jval.unsupported ""
  obtain ⟨he, _⟩ := h5 (by decide) rfl
  exact ⟨h1, h2.trans rfl, h3.trans rfl, he, (g4 (by decide)).1⟩

/-- Witness for C6: a blob write on a healthy fresh context writes the bytes
verbatim with no error, and the same write on a closed connection surfaces
the write error. -/
theorem blob_spec_w :
    (ctxW.Blob 200 MIMEPlain [104, 105]).2 = none ∧
    (ctxW.Blob 200 MIMEPlain [104, 105]).1.response.writer.written = [104, 105] ∧
    (ctxW.Blob 200 MIMEPlain [104, 105]).1.response.Status = 200 ∧
    (ctxW.Blob 200 MIMEPlain [104, 105]).1.response.header.get HeaderContentType
      = MIMEPlain ∧
    (ctxClosed.Blob 200 MIMEPlain [104, 105]).2 = some GoError.writeError := by
  obtain ⟨h1, h2, h3, _⟩ := blob_spec ctxW 200 MIMEPlain [104, 105]
  obtain ⟨_, _, _, g4⟩ := blob_spec ctxClosed 200 MIMEPlain [104, 105]
  obtain ⟨hs, _⟩ := h1 rfl
  obtain ⟨he, hw⟩ := h3 rfl
  exact ⟨he, hw.trans rfl, hs, h2.trans rfl, g4 rfl⟩

/-- Witness for C7: the multipart context is parsed through the 32 MiB
threshold and yields the multipart form mapping, the URL-encoded context
yields the standard form mapping. -/
theorem formParams_spec_w :
    ctxW.FormParams = Except.ok ⟨[("a", "b")]⟩ ∧
    ctxF.FormParams = Except.ok ⟨[("q", "v")]⟩ ∧
    defaultMemory = 33554432 := by
  obtain ⟨hd, hm, _⟩ := formParams_spec ctxW
  obtain ⟨_, _, hf⟩ := formParams_spec ctxF
  refine ⟨?_, ?_, hd⟩
  · rw [hm (by decide)]
    rfl
  · rw [hf (by decide)]
    rfl

/-- Witness for C9: a context whose handler is nil becomes safe after a
reset followed by further operations. -/
theorem handler_never_nil_w :
    (applyOps { ctxW with handler := HandlerFunc.nilHandler }
        [Op.reset reqF wrHealthy ⟨3⟩ ⟨4⟩, Op.writeContentType "text/html"]).Handler
      ≠ HandlerFunc.nilHandler := by
  exact (handler_never_nil { ctxW with handler := HandlerFunc.nilHandler }
    [Op.reset reqF wrHealthy ⟨3⟩ ⟨4⟩, Op.writeContentType "text/html"]
    (Or.inr ⟨reqF, wrHealthy, ⟨3⟩, ⟨4⟩, by simp⟩)).1
